import Mathlib

/-
  Shallow embedding of src/src/cygw32.c: Cygwin path-conversion support
  routines.  The module converts paths between POSIX form and native
  Windows form by delegating to the external OS facility
  cygwin_conv_path, marshaling strings through a UTF-16LE encoding and
  transiently changing the working directory of the process.

  External collaborators (the OS facility, the host text-encoding
  transforms ENCODE_FILE / DECODE_FILE / code_convert_string_norecord,
  the directory syscalls, and the errno string) are modeled as an
  abstract environment OSEnv of pure functions.  The mutable process
  state (current working directory, the specpdl stack of unwind
  entries, open saved-directory descriptors, and traces of the calls
  made to chdir and to the conversion facility) is threaded explicitly
  through a PState value.  The Lisp error signal is modeled by the Res
  result type: err carries the message and the state at the point of
  the signal; the unwinding that the host performs while a signal
  propagates is modeled by runEmacsCall.
-/

/-- An Emacs Lisp string: a byte sequence plus the multibyte flag.
    SBYTES is bytes.length and SDATA is the byte list itself. -/
structure EmacsString where
  bytes : List Nat
  multibyte : Bool
deriving DecidableEq, Repr

/-- The backing storage of an Emacs string: Emacs allocates SBYTES + 1
    bytes and keeps data[SBYTES] = 0, a single implicit NUL
    terminator beyond the visible bytes. -/
def stringStorage (s : EmacsString) : List Nat := s.bytes ++ [0]

/-- A Lisp value as far as this module inspects one: the entry points
    only ever compare the ABSOLUTE-P argument against nil. -/
inductive LispVal where
  | nil : LispVal
  | t : LispVal
  | str : EmacsString → LispVal
  | num : Int → LispVal
deriving DecidableEq, Repr

/-- One call made to the OS conversion facility cygwin_conv_path:
    the flags word, the source bytes, and whether it was the
    length-query call (null destination) or the fill call. -/
structure ConvCall where
  flags : Nat
  input : List Nat
  isQuery : Bool
deriving DecidableEq, Repr

/-- The mutable process state threaded through the module.
    cwd is the current working directory of the process (as the byte
    path the last successful chdir installed); specpdl is the stack of
    recorded unwind entries, each holding the descriptor of the saved
    directory (modeled by the directory it refers to); savedFds counts
    the saved-directory descriptors currently open; maxSavedFds is the
    high-water mark of savedFds, recorded so that statements about
    intermediate points of an execution can be made about the final
    state; chdirTrace and convTrace record, most recent first, the
    chdir targets attempted and the facility calls made. -/
structure PState where
  cwd : List Nat
  specpdl : List (List Nat)
  savedFds : Nat
  maxSavedFds : Nat
  chdirTrace : List (List Nat)
  convTrace : List ConvCall
deriving DecidableEq, Repr

/-- The external environment: OS syscalls, the conversion facility and
    the host text-encoding transforms, all consumed as black boxes.
    convQuery is cygwin_conv_path with a null destination (returns the
    required length, negative on failure); convFill is the second,
    filling call (none models a nonzero return, some bs the converted
    bytes written, terminator excluded). -/
structure OSEnv where
  openCwdFails : Bool
  errnoStr : String
  expandedDefaultDir : Option EmacsString
  chdirOK : List Nat → Bool
  fchdirOK : Bool
  encodeFile : EmacsString → EmacsString
  decodeFile : EmacsString → EmacsString
  encodeUtf16le : EmacsString → EmacsString
  decodeUtf16le : EmacsString → EmacsString
  convQuery : Nat → List Nat → Int
  convFill : Nat → List Nat → Int → Option (List Nat)

/-- Result of a computation that may signal a Lisp error: ok carries
    the value and the state, err the message and the state at the
    signal point (before the propagating unwind). -/
inductive Res (α : Type) where
  | ok : α → PState → Res α
  | err : String → PState → Res α
deriving DecidableEq, Repr

/-- The state carried by a result, whichever constructor. -/
def Res.state {α : Type} : Res α → PState
  | .ok _ s => s
  | .err _ s => s

/-- Whether the result is an error. -/
def Res.isErr {α : Type} : Res α → Bool
  | .ok _ _ => false
  | .err _ _ => true

/-- The error message, when the result is an error. -/
def Res.errMsg {α : Type} : Res α → Option String
  | .ok _ _ => none
  | .err m _ => some m

/- Flag constants of the external facility, from the Cygwin system
   header (sys/cygwin.h), which is outside this repository. -/

def CCP_POSIX_TO_WIN_W : Nat := 1
def CCP_WIN_W_TO_POSIX : Nat := 3
def CCP_RELATIVE : Nat := 256

/-- The flags word built by conv_filename_to_w32_unicode:
    CCP_POSIX_TO_WIN_W, with CCP_RELATIVE or-ed in when absolute_p is
    false. -/
def toNativeFlags (absolute_p : Bool) : Nat :=
  if absolute_p then CCP_POSIX_TO_WIN_W
  else Nat.lor CCP_POSIX_TO_WIN_W CCP_RELATIVE

/-- The flags word built by conv_filename_from_w32_unicode:
    CCP_WIN_W_TO_POSIX, with CCP_RELATIVE or-ed in when absolute_p is
    false. -/
def fromNativeFlags (absolute_p : Bool) : Nat :=
  if absolute_p then CCP_WIN_W_TO_POSIX
  else Nat.lor CCP_WIN_W_TO_POSIX CCP_RELATIVE

/-- fchdir_unwind (cygw32.c lines 27-33): the cleanup handler recorded
    by chdir_to_default_directory.  It calls fchdir on the saved
    descriptor and then close, casting both return values to void:
    neither a failed fchdir nor a failed close signals anything, which
    is why the model maps PState to PState with no Res.  The close
    always runs, so savedFds always drops by one. -/
def fchdir_unwind (env : OSEnv) (dir_fd : List Nat) (s : PState) : PState :=
  let s1 := if env.fchdirOK then { s with cwd := dir_fd } else s
  { s1 with savedFds := s1.savedFds - 1 }

/-- Runs a list of recorded fchdir_unwind entries, most recent
    first. -/
def runUnwinds (env : OSEnv) (fds : List (List Nat)) (s : PState) : PState :=
  match fds with
  | [] => s
  | fd :: rest => runUnwinds env rest (fchdir_unwind env fd s)

/-- unbind_to count: pops the specpdl down to depth count, running the
    fchdir_unwind handler of each popped entry.  Also models the
    unwinding the host error machinery performs while a signal
    propagates past the recorded entries. -/
def unbindTo (env : OSEnv) (count : Nat) (s : PState) : PState :=
  let n := s.specpdl.length - count
  runUnwinds env (s.specpdl.take n) { s with specpdl := s.specpdl.drop n }

/-- The root path build_string "/". -/
def rootString : EmacsString := EmacsString.mk [47] false

/-- The directory chdir_to_default_directory resolves: the result of
    Funhandled_file_name_directory (Fexpand_file_name "." nil), held
    abstractly in the environment; when that is not a string (the
    STRINGP check fails), the fallback build_string "/". -/
def resolvedDefaultDir (env : OSEnv) : EmacsString :=
  match env.expandedDefaultDir with
  | some d => d
  | none => rootString

/-- chdir_to_default_directory (cygw32.c lines 35-53): opens the
    current directory read-only (error on failure, with the errno
    string, before anything else happens), records fchdir_unwind on
    the specpdl with the new descriptor, resolves the default
    directory (falling back to "/" when the resolution is not a
    string), and chdirs to its ENCODE_FILE form (error on failure,
    with the errno string). -/
def chdir_to_default_directory (env : OSEnv) (s : PState) : Res Unit :=
  if env.openCwdFails then
    .err ("could not open current directory: " ++ env.errnoStr) s
  else
    let old_cwd_fd := s.cwd
    let s1 : PState := { s with
      specpdl := old_cwd_fd :: s.specpdl,
      savedFds := s.savedFds + 1,
      maxSavedFds := max s.maxSavedFds (s.savedFds + 1) }
    let new_cwd := resolvedDefaultDir env
    let target := (env.encodeFile new_cwd).bytes
    let s2 := { s1 with chdirTrace := target :: s1.chdirTrace }
    if env.chdirOK target then
      .ok () { s2 with cwd := target }
    else
      .err ("could not chdir: " ++ env.errnoStr) s2

/-- conv_filename_to_w32_unicode (cygw32.c lines 55-82): saves the
    specpdl index, acquires the working-directory guard, builds the
    flags, encodes the input with ENCODE_FILE, queries the facility
    for the length (error when the result is below 2), allocates
    converted_len - 1 bytes and has the facility fill them (error on a
    nonzero return), then unbinds to the saved index and returns the
    filled unibyte string. -/
def conv_filename_to_w32_unicode (env : OSEnv) (in0 : EmacsString)
    (absolute_p : Bool) (s : PState) : Res EmacsString :=
  let count := s.specpdl.length
  match chdir_to_default_directory env s with
  | .err e s1 => .err e s1
  | .ok _ s1 =>
    let flags := toNativeFlags absolute_p
    let inb := (env.encodeFile in0).bytes
    let converted_len := env.convQuery flags inb
    let s2 := { s1 with convTrace := ConvCall.mk flags inb true :: s1.convTrace }
    if converted_len < 2 then
      .err ("cygwin_conv_path: " ++ env.errnoStr) s2
    else
      let s3 := { s2 with convTrace := ConvCall.mk flags inb false :: s2.convTrace }
      match env.convFill flags inb converted_len with
      | none => .err ("cygwin_conv_path: " ++ env.errnoStr) s3
      | some bs => .ok (EmacsString.mk bs false) (unbindTo env count s3)

/-- conv_filename_from_w32_unicode (cygw32.c lines 84-108): the same
    two-call protocol in the native-to-POSIX direction, on a wide
    (wchar_t) input passed as its bytes; the length check is below 1,
    and the filled unibyte string is passed through DECODE_FILE before
    the unbind returns it. -/
def conv_filename_from_w32_unicode (env : OSEnv) (in0 : List Nat)
    (absolute_p : Bool) (s : PState) : Res EmacsString :=
  let count := s.specpdl.length
  match chdir_to_default_directory env s with
  | .err e s1 => .err e s1
  | .ok _ s1 =>
    let flags := fromNativeFlags absolute_p
    let converted_len := env.convQuery flags in0
    let s2 := { s1 with convTrace := ConvCall.mk flags in0 true :: s1.convTrace }
    if converted_len < 1 then
      .err ("cygwin_conv_path: " ++ env.errnoStr) s2
    else
      let s3 := { s2 with convTrace := ConvCall.mk flags in0 false :: s2.convTrace }
      match env.convFill flags in0 converted_len with
      | none => .err ("cygwin_conv_path: " ++ env.errnoStr) s3
      | some bs => .ok (env.decodeFile (EmacsString.mk bs false)) (unbindTo env count s3)

/-- Fsubstring str 0 -1 on a unibyte string: drops the final byte
    (the final character of a unibyte string is its final byte). -/
def substringDropLastByte (s : EmacsString) : EmacsString :=
  EmacsString.mk s.bytes.dropLast s.multibyte

/-- from_unicode (cygw32.c lines 110-121): when the string is not
    multibyte and its byte length is odd, drops the final byte with
    Fsubstring, then decodes through utf-16le with
    code_convert_string_norecord. -/
def from_unicode (env : OSEnv) (str : EmacsString) : EmacsString :=
  let str1 := if (!str.multibyte) && (str.bytes.length % 2 == 1)
              then substringDropLastByte str
              else str
  env.decodeUtf16le str1

/-- to_unicode (cygw32.c lines 123-138): encodes through utf-16le,
    then copies into a fresh unibyte string one byte longer whose last
    byte is set to 0, so that together with the implicit NUL
    terminator of the fresh string the buffer is doubly zero
    terminated.  The wchar_t pointer returned is WCSDATA of this
    string; the model returns the string itself (also stored back into
    the buf out-parameter). -/
def to_unicode (env : OSEnv) (str : EmacsString) : EmacsString :=
  let buf := env.encodeUtf16le str
  EmacsString.mk (buf.bytes ++ [0]) false

/-- cygwin-convert-path-to-windows (cygw32.c lines 140-149): converts
    PATH with the absolute flag (absolute_p == Qnil ? 0 : 1) and
    decodes the wide result with from_unicode. -/
def Fcygwin_convert_path_to_windows (env : OSEnv) (path : EmacsString)
    (absolute_p : LispVal) (s : PState) : Res EmacsString :=
  match conv_filename_to_w32_unicode env path
      (if absolute_p = LispVal.nil then false else true) s with
  | .ok v s1 => .ok (from_unicode env v) s1
  | .err e s1 => .err e s1

/-- cygwin-convert-path-from-windows (cygw32.c lines 151-160):
    re-encodes PATH into wide form with to_unicode and converts it
    with the absolute flag (absolute_p == Qnil ? 0 : 1). -/
def Fcygwin_convert_path_from_windows (env : OSEnv) (path : EmacsString)
    (absolute_p : LispVal) (s : PState) : Res EmacsString :=
  conv_filename_from_w32_unicode env (to_unicode env path).bytes
    (if absolute_p = LispVal.nil then false else true) s

/-- A call boundary of the host: when the body signals, the host error
    machinery runs the unwind handlers recorded during the call while
    the signal propagates out, which unbinds to the specpdl depth at
    entry. -/
def runEmacsCall {α : Type} (env : OSEnv) (f : PState → Res α) (s : PState) : Res α :=
  match f s with
  | .ok v s1 => .ok v s1
  | .err e s1 => .err e (unbindTo env s.specpdl.length s1)

/- Concrete environments and states used by the witness theorems. -/

/-- A benign concrete environment: every OS call succeeds, the file
    codecs are the identity on bytes, and the conversion facility maps
    the POSIX bytes of "foo" to the native bytes "c:\f" and back. -/
def wEnv : OSEnv where
  openCwdFails := false
  errnoStr := "No error"
  expandedDefaultDir := some (EmacsString.mk [47, 116, 109, 112] false)
  chdirOK := fun _ => true
  fchdirOK := true
  encodeFile := fun s => s
  decodeFile := fun s => s
  encodeUtf16le := fun s => EmacsString.mk s.bytes false
  decodeUtf16le := fun s => EmacsString.mk s.bytes true
  convQuery := fun fl _ => if fl = 257 then 5 else 4
  convFill := fun fl _ _ =>
    if fl = 257 then some [99, 58, 92, 102] else some [102, 111, 111]

/-- wEnv with the initial open of the current directory failing. -/
def wEnvOpenFail : OSEnv := { wEnv with openCwdFails := true }

/-- wEnv with the default-directory resolution yielding a non-string
    and every chdir failing. -/
def wEnvNoDir : OSEnv :=
  { wEnv with expandedDefaultDir := none, chdirOK := fun _ => false }

/-- wEnv with a length-query that always reports 0. -/
def wEnvShortQuery : OSEnv := { wEnv with convQuery := fun _ _ => 0 }

/-- A concrete starting state. -/
def wState : PState := PState.mk [100] [] 0 0 [] []

/-- The POSIX path "foo" as a unibyte string. -/
def wFoo : EmacsString := EmacsString.mk [102, 111, 111] false

/-- C4: for every host string, the wide buffer built by to_unicode has
    byte length exactly one greater than the utf-16le encoded form of
    the string, and its backing storage ends in two zero bytes, so the
    buffer is doubly null-terminated. -/
theorem C4_to_unicode_doubly_terminated (env : OSEnv) (str : EmacsString) :
    (to_unicode env str).bytes.length = (env.encodeUtf16le str).bytes.length + 1
    ∧ (stringStorage (to_unicode env str)).reverse.take 2 = [0, 0] := by
  constructor
  · simp [to_unicode]
  · simp [to_unicode, stringStorage]

/-- C5: from_unicode on a non-multibyte string of odd byte length
    decodes the string with its final byte removed; on a multibyte
    string, or one of even byte length, it decodes all of the bytes. -/
theorem C5_from_unicode_odd_trim (env : OSEnv) (str : EmacsString) :
    (str.multibyte = false → str.bytes.length % 2 = 1 →
      from_unicode env str
        = env.decodeUtf16le (EmacsString.mk str.bytes.dropLast str.multibyte))
    ∧ (str.multibyte = true ∨ str.bytes.length % 2 = 0 →
      from_unicode env str = env.decodeUtf16le str) := by
  constructor
  · intro hm ho
    simp [from_unicode, substringDropLastByte, hm, ho]
  · intro h
    rcases h with h | h
    · simp [from_unicode, h]
    · simp [from_unicode, h]

/-- Witness for C5 at the odd-length unibyte string [1, 2, 3]. -/
theorem C5_witness :
    from_unicode wEnv (EmacsString.mk [1, 2, 3] false)
      = wEnv.decodeUtf16le (EmacsString.mk [1, 2] false) :=
  (C5_from_unicode_odd_trim wEnv (EmacsString.mk [1, 2, 3] false)).1 rfl rfl

/-- C10: the cleanup handler fchdir_unwind is a total state transformer
    (it signals no error): it always closes the saved descriptor, so
    savedFds always drops by one, and it restores cwd exactly when the
    fchdir call succeeds, leaving every other state component
    unchanged. -/
theorem C10_fchdir_unwind_always_closes (env : OSEnv) (dir_fd : List Nat)
    (s : PState) :
    fchdir_unwind env dir_fd s
      = { s with cwd := if env.fchdirOK then dir_fd else s.cwd,
                 savedFds := s.savedFds - 1 } := by
  by_cases h : env.fchdirOK <;> simp [fchdir_unwind, h]

/-- C7: when the open of the current directory fails, the guard and
    both conversion operations fail at once with the I/O error carrying
    the OS error string, and the state is returned untouched: no unwind
    entry is recorded, no chdir is attempted and the facility is never
    called. -/
theorem C7_open_failure_is_immediate (env : OSEnv) (in0 : EmacsString)
    (wide : List Nat) (absolute_p : Bool) (s : PState)
    (h : env.openCwdFails = true) :
    chdir_to_default_directory env s
      = .err ("could not open current directory: " ++ env.errnoStr) s
    ∧ conv_filename_to_w32_unicode env in0 absolute_p s
      = .err ("could not open current directory: " ++ env.errnoStr) s
    ∧ conv_filename_from_w32_unicode env wide absolute_p s
      = .err ("could not open current directory: " ++ env.errnoStr) s := by
  refine ⟨?_, ?_, ?_⟩ <;>
    simp [chdir_to_default_directory, conv_filename_to_w32_unicode,
          conv_filename_from_w32_unicode, h]

/-- Witness for C7 in an environment whose open of the current
    directory fails. -/
theorem C7_witness :
    chdir_to_default_directory wEnvOpenFail wState
      = Res.err ("could not open current directory: " ++ wEnvOpenFail.errnoStr)
          wState :=
  (C7_open_failure_is_immediate wEnvOpenFail wFoo [] false wState rfl).1

/-- C8: when the default-directory resolution yields a non-string, the
    guard attempts to chdir to the ENCODE_FILE form of the root path
    "/", and when that chdir fails the operation fails with the I/O
    error carrying the OS error string. -/
theorem C8_fallback_to_root (env : OSEnv) (s : PState)
    (hopen : env.openCwdFails = false)
    (hres : env.expandedDefaultDir = none) :
    (chdir_to_default_directory env s).state.chdirTrace
      = (env.encodeFile rootString).bytes :: s.chdirTrace
    ∧ (env.chdirOK (env.encodeFile rootString).bytes = false →
        (chdir_to_default_directory env s).errMsg
          = some ("could not chdir: " ++ env.errnoStr)) := by
  constructor
  · by_cases h : env.chdirOK (env.encodeFile rootString).bytes <;>
      simp [chdir_to_default_directory, resolvedDefaultDir, hopen, hres, h,
            Res.state]
  · intro h
    simp [chdir_to_default_directory, resolvedDefaultDir, hopen, hres, h,
          Res.errMsg]

/-- Witness for C8 in an environment where the resolution is a
    non-string and chdir fails. -/
theorem C8_witness :
    (chdir_to_default_directory wEnvNoDir wState).state.chdirTrace = [[47]]
    ∧ (chdir_to_default_directory wEnvNoDir wState).errMsg
        = some ("could not chdir: " ++ wEnvNoDir.errnoStr) :=
  ⟨(C8_fallback_to_root wEnvNoDir wState rfl rfl).1,
   (C8_fallback_to_root wEnvNoDir wState rfl rfl).2 rfl⟩

/- Helper lemmas on the unwind machinery, shared by several claims. -/

/-- Unbinding to the current specpdl depth changes nothing. -/
theorem unbindTo_self (env : OSEnv) (st : PState) :
    unbindTo env st.specpdl.length st = st := by
  simp [unbindTo, runUnwinds]

/-- Unbinding one recorded entry runs its fchdir_unwind handler. -/
theorem unbindTo_one (env : OSEnv) (fd : List Nat) (st : PState)
    (rest : List (List Nat)) (h : st.specpdl = fd :: rest) :
    unbindTo env rest.length st
      = fchdir_unwind env fd { st with specpdl := rest } := by
  have hn : st.specpdl.length - rest.length = 1 := by simp [h]
  simp [unbindTo, hn, h, runUnwinds]

/-- C3: when the length-query call of the facility reports less than 2
    in the to-native direction, or less than 1 in the from-native
    direction, the operation fails with the I/O error carrying the OS
    error string and the facility is not called a second time: the
    trace of facility calls grows by exactly the one query call. -/
theorem C3_short_query_means_no_second_call (env : OSEnv) (in0 : EmacsString)
    (wide : List Nat) (absolute_p : Bool) (s : PState)
    (hopen : env.openCwdFails = false)
    (hchdir : env.chdirOK (env.encodeFile (resolvedDefaultDir env)).bytes = true) :
    (env.convQuery (toNativeFlags absolute_p) (env.encodeFile in0).bytes < 2 →
      (conv_filename_to_w32_unicode env in0 absolute_p s).errMsg
        = some ("cygwin_conv_path: " ++ env.errnoStr)
      ∧ (conv_filename_to_w32_unicode env in0 absolute_p s).state.convTrace
        = ConvCall.mk (toNativeFlags absolute_p) (env.encodeFile in0).bytes true
            :: s.convTrace)
    ∧ (env.convQuery (fromNativeFlags absolute_p) wide < 1 →
      (conv_filename_from_w32_unicode env wide absolute_p s).errMsg
        = some ("cygwin_conv_path: " ++ env.errnoStr)
      ∧ (conv_filename_from_w32_unicode env wide absolute_p s).state.convTrace
        = ConvCall.mk (fromNativeFlags absolute_p) wide true :: s.convTrace) := by
  constructor
  · intro hq
    simp [conv_filename_to_w32_unicode, chdir_to_default_directory, hopen,
          hchdir, hq, Res.errMsg, Res.state]
  · intro hq
    simp [conv_filename_from_w32_unicode, chdir_to_default_directory, hopen,
          hchdir, hq, Res.errMsg, Res.state]

/-- Witness for C3 in an environment whose length query reports 0. -/
theorem C3_witness :
    (conv_filename_to_w32_unicode wEnvShortQuery wFoo false wState).errMsg
      = some ("cygwin_conv_path: " ++ wEnvShortQuery.errnoStr)
    ∧ (conv_filename_to_w32_unicode wEnvShortQuery wFoo false wState).state.convTrace
      = ConvCall.mk (toNativeFlags false) (wEnvShortQuery.encodeFile wFoo).bytes true
          :: wState.convTrace :=
  (C3_short_query_means_no_second_call wEnvShortQuery wFoo [] false wState
    rfl rfl).1 (by decide)

/-- C6: each conversion operation is atomic in its result.  The result
    type returns a value only through the ok constructor, so an error
    carries no output; this theorem adds that a returned value is
    always the complete output of a successful facility fill call made
    after a successful length query: the to-native direction returns
    exactly the filled bytes as a unibyte string, and the from-native
    direction returns exactly DECODE_FILE of the filled bytes — never
    a partially converted string. -/
theorem C6_no_partial_results (env : OSEnv) (in0 : EmacsString)
    (wide : List Nat) (absolute_p : Bool) (s : PState) :
    (∀ v s1, conv_filename_to_w32_unicode env in0 absolute_p s = .ok v s1 →
      2 ≤ env.convQuery (toNativeFlags absolute_p) (env.encodeFile in0).bytes
      ∧ ∃ bs, env.convFill (toNativeFlags absolute_p) (env.encodeFile in0).bytes
            (env.convQuery (toNativeFlags absolute_p) (env.encodeFile in0).bytes)
          = some bs
        ∧ v = EmacsString.mk bs false)
    ∧ (∀ v s1, conv_filename_from_w32_unicode env wide absolute_p s = .ok v s1 →
      1 ≤ env.convQuery (fromNativeFlags absolute_p) wide
      ∧ ∃ bs, env.convFill (fromNativeFlags absolute_p) wide
            (env.convQuery (fromNativeFlags absolute_p) wide) = some bs
        ∧ v = env.decodeFile (EmacsString.mk bs false)) := by
  constructor
  · intro v s1 h
    unfold conv_filename_to_w32_unicode at h
    split at h
    · simp at h
    · dsimp only at h
      split at h
      · simp at h
      · rename_i hlen
        split at h
        · simp at h
        · rename_i bs hfill
          refine ⟨by omega, bs, hfill, ?_⟩
          exact ((Res.ok.inj h).1).symm
  · intro v s1 h
    unfold conv_filename_from_w32_unicode at h
    split at h
    · simp at h
    · dsimp only at h
      split at h
      · simp at h
      · rename_i hlen
        split at h
        · simp at h
        · rename_i bs hfill
          refine ⟨by omega, bs, hfill, ?_⟩
          exact ((Res.ok.inj h).1).symm

/-- Witness for C6: in the benign environment the to-native operation
    on "foo" succeeds and returns the complete facility output. -/
theorem C6_witness :
    2 ≤ wEnv.convQuery (toNativeFlags false) (wEnv.encodeFile wFoo).bytes
    ∧ ∃ bs, wEnv.convFill (toNativeFlags false) (wEnv.encodeFile wFoo).bytes
          (wEnv.convQuery (toNativeFlags false) (wEnv.encodeFile wFoo).bytes)
        = some bs
      ∧ EmacsString.mk [99, 58, 92, 102] false = EmacsString.mk bs false :=
  (C6_no_partial_results wEnv wFoo [] false wState).1
    (EmacsString.mk [99, 58, 92, 102] false)
    ((conv_filename_to_w32_unicode wEnv wFoo false wState).state)
    (by decide)

/-- The cleanup handler does not touch the facility-call trace. -/
theorem fchdir_unwind_convTrace (env : OSEnv) (fd : List Nat) (s : PState) :
    (fchdir_unwind env fd s).convTrace = s.convTrace := by
  by_cases h : env.fchdirOK <;> simp [fchdir_unwind, h]

/-- Running unwind entries does not touch the facility-call trace. -/
theorem runUnwinds_convTrace (env : OSEnv) (fds : List (List Nat)) (s : PState) :
    (runUnwinds env fds s).convTrace = s.convTrace := by
  induction fds generalizing s with
  | nil => rfl
  | cons fd rest ih => simp [runUnwinds, ih, fchdir_unwind_convTrace]

/-- Unbinding does not touch the facility-call trace. -/
theorem unbindTo_convTrace (env : OSEnv) (n : Nat) (s : PState) :
    (unbindTo env n s).convTrace = s.convTrace := by
  simp [unbindTo, runUnwinds_convTrace]

/-- Every facility call made by the to-native operation carries the
    flags toNativeFlags of its absolute argument, and at least one
    call is made. -/
theorem conv_to_trace_flags (env : OSEnv) (in0 : EmacsString) (b : Bool)
    (s : PState) (hopen : env.openCwdFails = false)
    (hchdir : env.chdirOK (env.encodeFile (resolvedDefaultDir env)).bytes = true) :
    ∃ cs, cs ≠ []
      ∧ (∀ c ∈ cs, c.flags = toNativeFlags b)
      ∧ (conv_filename_to_w32_unicode env in0 b s).state.convTrace
          = cs ++ s.convTrace := by
  by_cases hlen : env.convQuery (toNativeFlags b) (env.encodeFile in0).bytes < 2
  · refine ⟨[ConvCall.mk (toNativeFlags b) (env.encodeFile in0).bytes true],
      by simp, by simp, ?_⟩
    simp [conv_filename_to_w32_unicode, chdir_to_default_directory, hopen,
          hchdir, hlen, Res.state]
  · refine ⟨[ConvCall.mk (toNativeFlags b) (env.encodeFile in0).bytes false,
             ConvCall.mk (toNativeFlags b) (env.encodeFile in0).bytes true],
      by simp, by simp, ?_⟩
    cases hfill : env.convFill (toNativeFlags b) (env.encodeFile in0).bytes
        (env.convQuery (toNativeFlags b) (env.encodeFile in0).bytes) with
    | none =>
      simp [conv_filename_to_w32_unicode, chdir_to_default_directory, hopen,
            hchdir, hlen, hfill, Res.state]
    | some bs =>
      simp [conv_filename_to_w32_unicode, chdir_to_default_directory, hopen,
            hchdir, hlen, hfill, Res.state, unbindTo_convTrace]

/-- Every facility call made by the from-native operation carries the
    flags fromNativeFlags of its absolute argument, and at least one
    call is made. -/
theorem conv_from_trace_flags (env : OSEnv) (wide : List Nat) (b : Bool)
    (s : PState) (hopen : env.openCwdFails = false)
    (hchdir : env.chdirOK (env.encodeFile (resolvedDefaultDir env)).bytes = true) :
    ∃ cs, cs ≠ []
      ∧ (∀ c ∈ cs, c.flags = fromNativeFlags b)
      ∧ (conv_filename_from_w32_unicode env wide b s).state.convTrace
          = cs ++ s.convTrace := by
  by_cases hlen : env.convQuery (fromNativeFlags b) wide < 1
  · refine ⟨[ConvCall.mk (fromNativeFlags b) wide true], by simp, by simp, ?_⟩
    simp [conv_filename_from_w32_unicode, chdir_to_default_directory, hopen,
          hchdir, hlen, Res.state]
  · refine ⟨[ConvCall.mk (fromNativeFlags b) wide false,
             ConvCall.mk (fromNativeFlags b) wide true],
      by simp, by simp, ?_⟩
    cases hfill : env.convFill (fromNativeFlags b) wide
        (env.convQuery (fromNativeFlags b) wide) with
    | none =>
      simp [conv_filename_from_w32_unicode, chdir_to_default_directory, hopen,
            hchdir, hlen, hfill, Res.state]
    | some bs =>
      simp [conv_filename_from_w32_unicode, chdir_to_default_directory, hopen,
            hchdir, hlen, hfill, Res.state, unbindTo_convTrace]

/-- The to-windows entry point leaves the state of the underlying
    conversion untouched (it only decodes the returned value). -/
theorem Fto_state (env : OSEnv) (path : EmacsString) (a : LispVal) (s : PState) :
    (Fcygwin_convert_path_to_windows env path a s).state
      = (conv_filename_to_w32_unicode env path
          (if a = LispVal.nil then false else true) s).state := by
  unfold Fcygwin_convert_path_to_windows
  cases h : conv_filename_to_w32_unicode env path
      (if a = LispVal.nil then false else true) s with
  | ok v s1 => simp [Res.state]
  | err e s1 => simp [Res.state]

/-- C9: for both entry points the absolute flag handed to the
    conversion is true exactly when ABSOLUTE-P is any non-nil Lisp
    value, so every call made to the facility carries CCP_RELATIVE
    or-ed into the direction flag exactly when ABSOLUTE-P is nil. -/
theorem C9_absolute_flag_iff_nonnil (env : OSEnv) (path : EmacsString)
    (absolute_p : LispVal) (s : PState)
    (hopen : env.openCwdFails = false)
    (hchdir : env.chdirOK (env.encodeFile (resolvedDefaultDir env)).bytes = true) :
    (∃ cs, cs ≠ []
      ∧ (∀ c ∈ cs, c.flags = if absolute_p = LispVal.nil
            then Nat.lor CCP_POSIX_TO_WIN_W CCP_RELATIVE
            else CCP_POSIX_TO_WIN_W)
      ∧ (Fcygwin_convert_path_to_windows env path absolute_p s).state.convTrace
          = cs ++ s.convTrace)
    ∧ (∃ cs, cs ≠ []
      ∧ (∀ c ∈ cs, c.flags = if absolute_p = LispVal.nil
            then Nat.lor CCP_WIN_W_TO_POSIX CCP_RELATIVE
            else CCP_WIN_W_TO_POSIX)
      ∧ (Fcygwin_convert_path_from_windows env path absolute_p s).state.convTrace
          = cs ++ s.convTrace) := by
  constructor
  · obtain ⟨cs, h1, h2, h3⟩ := conv_to_trace_flags env path
      (if absolute_p = LispVal.nil then false else true) s hopen hchdir
    refine ⟨cs, h1, ?_, ?_⟩
    · intro c hc
      have hcf := h2 c hc
      by_cases hn : absolute_p = LispVal.nil <;>
        simp [hn, toNativeFlags] at hcf ⊢ <;> exact hcf
    · rw [Fto_state]
      exact h3
  · obtain ⟨cs, h1, h2, h3⟩ := conv_from_trace_flags env
      (to_unicode env path).bytes
      (if absolute_p = LispVal.nil then false else true) s hopen hchdir
    refine ⟨cs, h1, ?_, ?_⟩
    · intro c hc
      have hcf := h2 c hc
      by_cases hn : absolute_p = LispVal.nil <;>
        simp [hn, fromNativeFlags] at hcf ⊢ <;> exact hcf
    · exact h3

/-- Witness for C9 with the non-nil value t. -/
theorem C9_witness :
    ∃ cs, cs ≠ []
      ∧ (∀ c ∈ cs, c.flags = if LispVal.t = LispVal.nil
            then Nat.lor CCP_POSIX_TO_WIN_W CCP_RELATIVE
            else CCP_POSIX_TO_WIN_W)
      ∧ (Fcygwin_convert_path_to_windows wEnv wFoo LispVal.t wState).state.convTrace
          = cs ++ wState.convTrace :=
  (C9_absolute_flag_iff_nonnil wEnv wFoo LispVal.t wState rfl rfl).1

/-- Unbinding exactly one recorded entry when the restoring fchdir
    succeeds: the working directory returns to the saved one and the
    descriptor is closed. -/
theorem unbindTo_cons_run (env : OSEnv) (hf : env.fchdirOK = true)
    (fd : List Nat) (rest : List (List Nat)) (a : List Nat) (c d : Nat)
    (e : List (List Nat)) (f : List ConvCall) :
    unbindTo env rest.length (PState.mk a (fd :: rest) (c + 1) d e f)
      = PState.mk fd rest c d e f := by
  have hn : (fd :: rest).length - rest.length = 1 := by simp
  simp [unbindTo, hn, runUnwinds, fchdir_unwind, hf]

/-- After a to-native conversion call, successful or failing, the
    working directory, the specpdl and the open saved descriptors are
    back to their values at entry, and at most one more saved
    descriptor than at entry was ever open. -/
theorem runConv_to_restores (env : OSEnv) (in0 : EmacsString) (b : Bool)
    (s : PState) (hf : env.fchdirOK = true) :
    (runEmacsCall env (conv_filename_to_w32_unicode env in0 b) s).state.cwd = s.cwd
    ∧ (runEmacsCall env (conv_filename_to_w32_unicode env in0 b) s).state.specpdl
        = s.specpdl
    ∧ (runEmacsCall env (conv_filename_to_w32_unicode env in0 b) s).state.savedFds
        = s.savedFds
    ∧ (runEmacsCall env (conv_filename_to_w32_unicode env in0 b) s).state.maxSavedFds
        ≤ max s.maxSavedFds (s.savedFds + 1) := by
  by_cases ho : env.openCwdFails
  · have hconv : conv_filename_to_w32_unicode env in0 b s
        = .err ("could not open current directory: " ++ env.errnoStr) s := by
      simp [conv_filename_to_w32_unicode, chdir_to_default_directory, ho]
    simp [runEmacsCall, hconv, unbindTo_self, Res.state]
  · by_cases hc : env.chdirOK (env.encodeFile (resolvedDefaultDir env)).bytes
    · by_cases hlen : env.convQuery (toNativeFlags b) (env.encodeFile in0).bytes < 2
      · have hconv : conv_filename_to_w32_unicode env in0 b s
            = .err ("cygwin_conv_path: " ++ env.errnoStr)
                (PState.mk (env.encodeFile (resolvedDefaultDir env)).bytes
                  (s.cwd :: s.specpdl) (s.savedFds + 1)
                  (max s.maxSavedFds (s.savedFds + 1))
                  ((env.encodeFile (resolvedDefaultDir env)).bytes :: s.chdirTrace)
                  (ConvCall.mk (toNativeFlags b) (env.encodeFile in0).bytes true
                    :: s.convTrace)) := by
          simp [conv_filename_to_w32_unicode, chdir_to_default_directory,
                ho, hc, hlen]
        simp [runEmacsCall, hconv, unbindTo_cons_run env hf, Res.state]
      · cases hfill : env.convFill (toNativeFlags b) (env.encodeFile in0).bytes
            (env.convQuery (toNativeFlags b) (env.encodeFile in0).bytes) with
        | none =>
          have hconv : conv_filename_to_w32_unicode env in0 b s
              = .err ("cygwin_conv_path: " ++ env.errnoStr)
                  (PState.mk (env.encodeFile (resolvedDefaultDir env)).bytes
                    (s.cwd :: s.specpdl) (s.savedFds + 1)
                    (max s.maxSavedFds (s.savedFds + 1))
                    ((env.encodeFile (resolvedDefaultDir env)).bytes :: s.chdirTrace)
                    (ConvCall.mk (toNativeFlags b) (env.encodeFile in0).bytes false
                      :: ConvCall.mk (toNativeFlags b) (env.encodeFile in0).bytes true
                      :: s.convTrace)) := by
            simp [conv_filename_to_w32_unicode, chdir_to_default_directory,
                  ho, hc, hlen, hfill]
          simp [runEmacsCall, hconv, unbindTo_cons_run env hf, Res.state]
        | some bs =>
          have hconv : conv_filename_to_w32_unicode env in0 b s
              = .ok (EmacsString.mk bs false)
                  (unbindTo env s.specpdl.length
                    (PState.mk (env.encodeFile (resolvedDefaultDir env)).bytes
                      (s.cwd :: s.specpdl) (s.savedFds + 1)
                      (max s.maxSavedFds (s.savedFds + 1))
                      ((env.encodeFile (resolvedDefaultDir env)).bytes :: s.chdirTrace)
                      (ConvCall.mk (toNativeFlags b) (env.encodeFile in0).bytes false
                        :: ConvCall.mk (toNativeFlags b) (env.encodeFile in0).bytes true
                        :: s.convTrace))) := by
            simp [conv_filename_to_w32_unicode, chdir_to_default_directory,
                  ho, hc, hlen, hfill]
          simp [runEmacsCall, hconv, unbindTo_cons_run env hf, Res.state]
    · have hconv : conv_filename_to_w32_unicode env in0 b s
          = .err ("could not chdir: " ++ env.errnoStr)
              (PState.mk s.cwd (s.cwd :: s.specpdl) (s.savedFds + 1)
                (max s.maxSavedFds (s.savedFds + 1))
                ((env.encodeFile (resolvedDefaultDir env)).bytes :: s.chdirTrace)
                s.convTrace) := by
        simp [conv_filename_to_w32_unicode, chdir_to_default_directory,
              ho, hc]
      simp [runEmacsCall, hconv, unbindTo_cons_run env hf, Res.state]

/-- After a from-native conversion call, successful or failing, the
    working directory, the specpdl and the open saved descriptors are
    back to their values at entry, and at most one more saved
    descriptor than at entry was ever open. -/
theorem runConv_from_restores (env : OSEnv) (wide : List Nat) (b : Bool)
    (s : PState) (hf : env.fchdirOK = true) :
    (runEmacsCall env (conv_filename_from_w32_unicode env wide b) s).state.cwd = s.cwd
    ∧ (runEmacsCall env (conv_filename_from_w32_unicode env wide b) s).state.specpdl
        = s.specpdl
    ∧ (runEmacsCall env (conv_filename_from_w32_unicode env wide b) s).state.savedFds
        = s.savedFds
    ∧ (runEmacsCall env (conv_filename_from_w32_unicode env wide b) s).state.maxSavedFds
        ≤ max s.maxSavedFds (s.savedFds + 1) := by
  by_cases ho : env.openCwdFails
  · have hconv : conv_filename_from_w32_unicode env wide b s
        = .err ("could not open current directory: " ++ env.errnoStr) s := by
      simp [conv_filename_from_w32_unicode, chdir_to_default_directory, ho]
    simp [runEmacsCall, hconv, unbindTo_self, Res.state]
  · by_cases hc : env.chdirOK (env.encodeFile (resolvedDefaultDir env)).bytes
    · by_cases hlen : env.convQuery (fromNativeFlags b) wide < 1
      · have hconv : conv_filename_from_w32_unicode env wide b s
            = .err ("cygwin_conv_path: " ++ env.errnoStr)
                (PState.mk (env.encodeFile (resolvedDefaultDir env)).bytes
                  (s.cwd :: s.specpdl) (s.savedFds + 1)
                  (max s.maxSavedFds (s.savedFds + 1))
                  ((env.encodeFile (resolvedDefaultDir env)).bytes :: s.chdirTrace)
                  (ConvCall.mk (fromNativeFlags b) wide true :: s.convTrace)) := by
          simp [conv_filename_from_w32_unicode, chdir_to_default_directory,
                ho, hc, hlen]
        simp [runEmacsCall, hconv, unbindTo_cons_run env hf, Res.state]
      · cases hfill : env.convFill (fromNativeFlags b) wide
            (env.convQuery (fromNativeFlags b) wide) with
        | none =>
          have hconv : conv_filename_from_w32_unicode env wide b s
              = .err ("cygwin_conv_path: " ++ env.errnoStr)
                  (PState.mk (env.encodeFile (resolvedDefaultDir env)).bytes
                    (s.cwd :: s.specpdl) (s.savedFds + 1)
                    (max s.maxSavedFds (s.savedFds + 1))
                    ((env.encodeFile (resolvedDefaultDir env)).bytes :: s.chdirTrace)
                    (ConvCall.mk (fromNativeFlags b) wide false
                      :: ConvCall.mk (fromNativeFlags b) wide true
                      :: s.convTrace)) := by
            simp [conv_filename_from_w32_unicode, chdir_to_default_directory,
                  ho, hc, hlen, hfill]
          simp [runEmacsCall, hconv, unbindTo_cons_run env hf, Res.state]
        | some bs =>
          have hconv : conv_filename_from_w32_unicode env wide b s
              = .ok (env.decodeFile (EmacsString.mk bs false))
                  (unbindTo env s.specpdl.length
                    (PState.mk (env.encodeFile (resolvedDefaultDir env)).bytes
                      (s.cwd :: s.specpdl) (s.savedFds + 1)
                      (max s.maxSavedFds (s.savedFds + 1))
                      ((env.encodeFile (resolvedDefaultDir env)).bytes :: s.chdirTrace)
                      (ConvCall.mk (fromNativeFlags b) wide false
                        :: ConvCall.mk (fromNativeFlags b) wide true
                        :: s.convTrace))) := by
            simp [conv_filename_from_w32_unicode, chdir_to_default_directory,
                  ho, hc, hlen, hfill]
          simp [runEmacsCall, hconv, unbindTo_cons_run env hf, Res.state]
    · have hconv : conv_filename_from_w32_unicode env wide b s
          = .err ("could not chdir: " ++ env.errnoStr)
              (PState.mk s.cwd (s.cwd :: s.specpdl) (s.savedFds + 1)
                (max s.maxSavedFds (s.savedFds + 1))
                ((env.encodeFile (resolvedDefaultDir env)).bytes :: s.chdirTrace)
                s.convTrace) := by
        simp [conv_filename_from_w32_unicode, chdir_to_default_directory,
              ho, hc]
      simp [runEmacsCall, hconv, unbindTo_cons_run env hf, Res.state]

/-- The call-boundary state of the to-windows entry point equals the
    call-boundary state of the underlying to-native conversion. -/
theorem runFto_state (env : OSEnv) (path : EmacsString) (a : LispVal)
    (s : PState) :
    (runEmacsCall env (Fcygwin_convert_path_to_windows env path a) s).state
      = (runEmacsCall env (conv_filename_to_w32_unicode env path
          (if a = LispVal.nil then false else true)) s).state := by
  unfold runEmacsCall Fcygwin_convert_path_to_windows
  cases h : conv_filename_to_w32_unicode env path
      (if a = LispVal.nil then false else true) s with
  | ok v s1 => simp [Res.state]
  | err e s1 => simp [Res.state]

/-- C2: after either conversion call returns, successfully or with an
    error, the working directory of the process has been restored to
    the one saved at entry (given that the restoring fchdir call of
    the cleanup succeeds), the specpdl and the count of open saved
    descriptors are back to their entry values, and at no point during
    the call was more than one saved working-directory handle open
    beyond those already open at entry. -/
theorem C2_working_directory_restored (env : OSEnv) (path : EmacsString)
    (absolute_p : LispVal) (s : PState) (hf : env.fchdirOK = true) :
    ((runEmacsCall env (Fcygwin_convert_path_to_windows env path absolute_p) s).state.cwd
        = s.cwd
      ∧ (runEmacsCall env (Fcygwin_convert_path_to_windows env path absolute_p) s).state.specpdl
        = s.specpdl
      ∧ (runEmacsCall env (Fcygwin_convert_path_to_windows env path absolute_p) s).state.savedFds
        = s.savedFds
      ∧ (runEmacsCall env (Fcygwin_convert_path_to_windows env path absolute_p) s).state.maxSavedFds
        ≤ max s.maxSavedFds (s.savedFds + 1))
    ∧ ((runEmacsCall env (Fcygwin_convert_path_from_windows env path absolute_p) s).state.cwd
        = s.cwd
      ∧ (runEmacsCall env (Fcygwin_convert_path_from_windows env path absolute_p) s).state.specpdl
        = s.specpdl
      ∧ (runEmacsCall env (Fcygwin_convert_path_from_windows env path absolute_p) s).state.savedFds
        = s.savedFds
      ∧ (runEmacsCall env (Fcygwin_convert_path_from_windows env path absolute_p) s).state.maxSavedFds
        ≤ max s.maxSavedFds (s.savedFds + 1)) := by
  constructor
  · rw [runFto_state env path absolute_p s]
    exact runConv_to_restores env path
      (if absolute_p = LispVal.nil then false else true) s hf
  · exact runConv_from_restores env (to_unicode env path).bytes
      (if absolute_p = LispVal.nil then false else true) s hf

/-- Witness for C2: in the benign environment the call on "foo"
    returns with the working directory restored. -/
theorem C2_witness :
    (runEmacsCall wEnv (Fcygwin_convert_path_to_windows wEnv wFoo LispVal.nil) wState).state.cwd
      = wState.cwd :=
  ((C2_working_directory_restored wEnv wFoo LispVal.nil wState rfl).1).1

/-- C1: the program preserves a round trip of the external facility.
    Converting a path p to native form with absolute false and
    converting the result back with absolute false returns exactly p,
    whenever the external collaborators behave as the claim assumes:
    the OS calls of the guard succeed, both facility calls of each
    direction succeed (bs being the native bytes produced for p), the
    facility output has even byte length as a UTF-16 form does, and
    the facility maps the re-encoded wide form of the decoded native
    path back to bytes cs that DECODE_FILE turns into p again — the
    allowance for path-separator normalization by the OS facility,
    which this module delegates to. -/
theorem C1_round_trip (env : OSEnv) (p : EmacsString) (bs cs : List Nat)
    (s : PState)
    (hopen : env.openCwdFails = false)
    (hchdir : env.chdirOK (env.encodeFile (resolvedDefaultDir env)).bytes = true)
    (hq1 : 2 ≤ env.convQuery (toNativeFlags false) (env.encodeFile p).bytes)
    (hf1 : env.convFill (toNativeFlags false) (env.encodeFile p).bytes
        (env.convQuery (toNativeFlags false) (env.encodeFile p).bytes) = some bs)
    (heven : bs.length % 2 = 0)
    (hq2 : 1 ≤ env.convQuery (fromNativeFlags false)
        ((env.encodeUtf16le (env.decodeUtf16le (EmacsString.mk bs false))).bytes ++ [0]))
    (hf2 : env.convFill (fromNativeFlags false)
        ((env.encodeUtf16le (env.decodeUtf16le (EmacsString.mk bs false))).bytes ++ [0])
        (env.convQuery (fromNativeFlags false)
          ((env.encodeUtf16le (env.decodeUtf16le (EmacsString.mk bs false))).bytes ++ [0]))
      = some cs)
    (hrt : env.decodeFile (EmacsString.mk cs false) = p) :
    ∃ w s1 s2,
      Fcygwin_convert_path_to_windows env p LispVal.nil s = Res.ok w s1
      ∧ Fcygwin_convert_path_from_windows env w LispVal.nil s1 = Res.ok p s2 := by
  have hlen1 : ¬(env.convQuery (toNativeFlags false) (env.encodeFile p).bytes < 2) := by
    omega
  have hconv1 : conv_filename_to_w32_unicode env p false s
      = .ok (EmacsString.mk bs false)
          (unbindTo env s.specpdl.length
            (PState.mk (env.encodeFile (resolvedDefaultDir env)).bytes
              (s.cwd :: s.specpdl) (s.savedFds + 1)
              (max s.maxSavedFds (s.savedFds + 1))
              ((env.encodeFile (resolvedDefaultDir env)).bytes :: s.chdirTrace)
              (ConvCall.mk (toNativeFlags false) (env.encodeFile p).bytes false
                :: ConvCall.mk (toNativeFlags false) (env.encodeFile p).bytes true
                :: s.convTrace))) := by
    simp [conv_filename_to_w32_unicode, chdir_to_default_directory, hopen,
          hchdir, hlen1, hf1]
  have hw : from_unicode env (EmacsString.mk bs false)
      = env.decodeUtf16le (EmacsString.mk bs false) := by
    simp [from_unicode, heven]
  have hFto : Fcygwin_convert_path_to_windows env p LispVal.nil s
      = .ok (env.decodeUtf16le (EmacsString.mk bs false))
          (unbindTo env s.specpdl.length
            (PState.mk (env.encodeFile (resolvedDefaultDir env)).bytes
              (s.cwd :: s.specpdl) (s.savedFds + 1)
              (max s.maxSavedFds (s.savedFds + 1))
              ((env.encodeFile (resolvedDefaultDir env)).bytes :: s.chdirTrace)
              (ConvCall.mk (toNativeFlags false) (env.encodeFile p).bytes false
                :: ConvCall.mk (toNativeFlags false) (env.encodeFile p).bytes true
                :: s.convTrace))) := by
    simp [Fcygwin_convert_path_to_windows, hconv1, hw]
  have hlen2 : ¬(env.convQuery (fromNativeFlags false)
      ((env.encodeUtf16le (env.decodeUtf16le (EmacsString.mk bs false))).bytes ++ [0]) < 1) := by
    omega
  have hFfrom : ∀ t : PState, Fcygwin_convert_path_from_windows env
      (env.decodeUtf16le (EmacsString.mk bs false)) LispVal.nil t
      = .ok p
          (unbindTo env t.specpdl.length
            (PState.mk (env.encodeFile (resolvedDefaultDir env)).bytes
              (t.cwd :: t.specpdl) (t.savedFds + 1)
              (max t.maxSavedFds (t.savedFds + 1))
              ((env.encodeFile (resolvedDefaultDir env)).bytes :: t.chdirTrace)
              (ConvCall.mk (fromNativeFlags false)
                  ((env.encodeUtf16le (env.decodeUtf16le (EmacsString.mk bs false))).bytes ++ [0]) false
                :: ConvCall.mk (fromNativeFlags false)
                  ((env.encodeUtf16le (env.decodeUtf16le (EmacsString.mk bs false))).bytes ++ [0]) true
                :: t.convTrace))) := by
    intro t
    simp [Fcygwin_convert_path_from_windows, to_unicode,
          conv_filename_from_w32_unicode, chdir_to_default_directory, hopen,
          hchdir, hlen2, hf2, hrt]
  exact ⟨env.decodeUtf16le (EmacsString.mk bs false), _, _, hFto, hFfrom _⟩

/-- Witness for C1: in the benign environment the relative POSIX path
    "foo" maps to the native bytes and back to "foo". -/
theorem C1_witness :
    ∃ w s1 s2,
      Fcygwin_convert_path_to_windows wEnv wFoo LispVal.nil wState = Res.ok w s1
      ∧ Fcygwin_convert_path_from_windows wEnv w LispVal.nil s1 = Res.ok wFoo s2 :=
  C1_round_trip wEnv wFoo [99, 58, 92, 102] [102, 111, 111] wState rfl rfl
    (by decide) (by decide) (by decide) (by decide) (by decide) (by decide)
